import Mathlib

/-!
Verification of the customer-on-map resolution pipeline
(`src/components/Map.tsx`) against its specification.

The embedding follows the source file closely:

* `Person` embeds the TS interface `Person` (the spec's `CustomerRecord`);
  `PersonWithLocation` adds the optional `location`.
* JS numbers that carry coordinates and random draws are modelled as `ℚ`;
  a `Math.random()` call is modelled by a parameter `r : ℚ` with the
  side condition `0 ≤ r < 1`.
* The year of a raw extracted row is modelled as `Option Int`, where
  `none` embeds the `NaN` produced by `Date.parse` on an unparsable date.
  Records past extraction carry an integer `year`, matching the data
  model (`year: integer`).
* A network/JSON failure of one geocoding call is an `Except.error`
  (the spec's `LookupFailure`); `Promise.all` over the per-record tasks
  is embedded as the `Except`-style sequencing `resolveAll`, which is
  an error exactly when some individual call fails.
* The mutable `processedPeople` React state counter is threaded
  explicitly as a `Nat` through the orchestration.
-/

namespace CustomerMap

/-- Embeds `interface Person` (spec: `CustomerRecord`). -/
structure Person where
  city : String
  year : Int
  name : String
  device : String
deriving DecidableEq

/-- A `{lat, lng}` coordinate pair; JS numbers modelled as rationals. -/
structure Coord where
  lat : ℚ
  lng : ℚ
deriving DecidableEq

/-- Embeds `interface PersonWithLocation extends Person` (spec: `ResolvedRecord`). -/
structure PersonWithLocation where
  city : String
  year : Int
  name : String
  device : String
  location : Option Coord
deriving DecidableEq

/-- Forgets the optional location, recovering the underlying `Person`. -/
def forgetLocation (p : PersonWithLocation) : Person :=
  { city := p.city, year := p.year, name := p.name, device := p.device }

/-- Embeds `addRandomOffset` (Map.tsx lines 21-28).  The two `Math.random()`
draws are the parameters `r1 r2`; the source computes
`(Math.random() - 0.5) * 0.005` per axis. -/
def addRandomOffset (r1 r2 : ℚ) (location : Coord) : Coord :=
  { lat := location.lat + (r1 - 1/2) * (5/1000),
    lng := location.lng + (r2 - 1/2) * (5/1000) }

/-- Embeds the `tailwindColorNames` palette (Map.tsx lines 30-51). -/
def tailwindColorNames : List String :=
  [ "border-gray-500", "border-red-500", "border-yellow-500", "border-blue-500",
    "border-indigo-500", "border-purple-500", "border-pink-500", "border-amber-500",
    "border-lime-500", "border-emerald-500", "border-teal-500", "border-cyan-500",
    "border-sky-500", "border-violet-500", "border-fuchsia-500", "border-rose-500",
    "border-slate-500", "border-zinc-500", "border-neutral-500", "border-stone-500" ]

/-- One candidate of the geocoding response.  `coordinates` embeds
`geometry.coordinates`, whose wire format is `[longitude, latitude]`:
`.1` is index 0 (longitude) and `.2` is index 1 (latitude). -/
structure Feature where
  coordinates : ℚ × ℚ
deriving DecidableEq

/-- Parsed JSON body of a geocoding response: a `features` array. -/
structure GeoResponse where
  features : List Feature
deriving DecidableEq

/-- A network or parse failure of one lookup (spec: `LookupFailure`). -/
abbrev LookupFailure := String

/-- Embeds `fetchCityLocation` (Map.tsx lines 70-91).  `rnd` supplies the
two `Math.random()` draws consumed by `addRandomOffset`; `resp` is the
outcome of `fetch` + `response.json()` (an `Except.error` when either
throws); `processed` is the `processedPeople` counter.  On a received
response the counter is incremented (`setProcessedPeople(state => state+1)`,
line 80); if `data.features[0]` exists its `[longitude, latitude]` pair is
swapped into `{lat, lng}` and jittered, otherwise the person is returned
without a location. -/
def fetchCityLocation (rnd : ℚ × ℚ) (person : Person)
    (resp : Except LookupFailure GeoResponse) (processed : Nat) :
    Except LookupFailure (Nat × PersonWithLocation) :=
  match resp with
  | .error e => .error e
  | .ok data =>
    match data.features.head? with
    | some f =>
        .ok (processed + 1,
          { city := person.city, year := person.year, name := person.name,
            device := person.device,
            location := some (addRandomOffset rnd.1 rnd.2
              { lat := f.coordinates.2, lng := f.coordinates.1 }) })
    | none =>
        .ok (processed + 1,
          { city := person.city, year := person.year, name := person.name,
            device := person.device, location := none })

/-- Embeds one arm of the `Promise.all` fan-out (Map.tsx lines 125-129):
`await fetchCityLocation(person)` followed by a second
`setProcessedPeople(prev => prev + 1)` (line 127). -/
def resolveOne (rnd : ℚ × ℚ) (person : Person)
    (resp : Except LookupFailure GeoResponse) (processed : Nat) :
    Except LookupFailure (Nat × PersonWithLocation) :=
  match fetchCityLocation rnd person resp processed with
  | .error e => .error e
  | .ok (n, pw) => .ok (n + 1, pw)

/-- Embeds the `Promise.all(foundPeople.map ...)` orchestration
(Map.tsx lines 124-130).  `geo i` is the response of the lookup issued for
the `i`-th record and `rnd i` its random draws (no caching: every call is
independent).  The counter updates of the concurrent tasks commute (each
is a pure increment), so the fan-out is sequentialised; the result is an
error exactly when some individual lookup fails, which matches
`Promise.all` rejecting. -/
def resolveAll (geo : Nat → Except LookupFailure GeoResponse)
    (rnd : Nat → ℚ × ℚ) :
    List Person → Nat → Nat → Except LookupFailure (Nat × List PersonWithLocation)
  | [], _, processed => .ok (processed, [])
  | p :: ps, i, processed =>
    match resolveOne (rnd i) p (geo i) processed with
    | .error e => .error e
    | .ok (n, pw) =>
      match resolveAll geo rnd ps (i + 1) n with
      | .error e => .error e
      | .ok (m, rest) => .ok (m, pw :: rest)

/-- Embeds the `element !== null` check of Map.tsx line 133.
`fetchCityLocation` always returns a (non-null) object, so on the embedded
values the predicate is constantly true. -/
def notNull (_ : PersonWithLocation) : Bool := true

/-- Stable insertion of a record into a year-sorted list; `insertPerson`
and `sortPeople` together embed `.sort((a, b) => a.year - b.year)`
(Map.tsx line 134): ECMAScript `Array.prototype.sort` is a stable sort,
and a stable sort by an integer key has a unique result, realised here by
insertion sort. -/
def insertPerson (x : PersonWithLocation) :
    List PersonWithLocation → List PersonWithLocation
  | [] => [x]
  | y :: ys => if x.year ≤ y.year then x :: y :: ys else y :: insertPerson x ys

/-- Stable sort ascending by `year`; see `insertPerson`. -/
def sortPeople : List PersonWithLocation → List PersonWithLocation
  | [] => []
  | x :: xs => insertPerson x (sortPeople xs)

/-- Embeds the `people` state transition of `processFile`
(Map.tsx lines 123-141): on success the null-filtered, year-sorted
resolved list replaces the previous one (`setPeople`, line 136); when any
lookup fails, the `catch` only logs and `setPeople` is never called, so
the previous list `prev` stays. -/
def processFilePeople (prev : List PersonWithLocation)
    (geo : Nat → Except LookupFailure GeoResponse) (rnd : Nat → ℚ × ℚ)
    (records : List Person) : List PersonWithLocation :=
  match resolveAll geo rnd records 0 0 with
  | .error _ => prev
  | .ok (_, assigned) => sortPeople (assigned.filter notNull)

/-- One raw row of `utils.sheet_to_json` output: a mapping from the
column labels used by the source to optional cell strings
(`Bydliště` = residence city, `Datum prodeje` = sale date,
`Jméno` = given name, `Přijmení` = family name, `Typ` = device). -/
structure Row where
  bydliste : Option String
  datumProdeje : Option String
  jmeno : Option String
  prijmeni : Option String
  typ : Option String
deriving DecidableEq

/-- Embeds `.replace(/[0-9]/g, "")` on the city cell. -/
def stripDigits (s : String) : String :=
  String.mk (s.data.filter (fun c => !c.isDigit))

/-- One extracted record before the downstream pipeline: `year` is
`Option Int`, with `none` embedding the `NaN` that
`new Date(Date.parse(s)).getFullYear()` yields on an unparsable (or
absent) date cell. -/
structure RawPerson where
  city : String
  year : Option Int
  name : String
  device : String
deriving DecidableEq

/-- Embeds the row-to-record mapping of Map.tsx lines 113-118.
`parseYear` models `new Date(Date.parse(s)).getFullYear()` (`none` = `NaN`);
an absent date cell also yields `NaN`.  An absent `Typ` cell is modelled
as the empty string. -/
def toRawPerson (parseYear : String → Option Int) (row : Row) : RawPerson :=
  { city := stripDigits (row.bydliste.getD ""),
    year := row.datumProdeje.bind parseYear,
    name := (row.jmeno.getD "") ++ " " ++ (row.prijmeni.getD ""),
    device := row.typ.getD "" }

/-- Embeds `foundPeople` (Map.tsx lines 111-118): keep the rows whose
`Bydliště` cell is truthy (present and non-empty), then map each to a
record. -/
def extract (parseYear : String → Option Int) (rows : List Row) :
    List RawPerson :=
  (rows.filter (fun row => row.bydliste.getD "" != "")).map (toRawPerson parseYear)

/-- Embeds the `colorMap` construction loop (Map.tsx lines 147-156) on an
association list: `colorMap` is the accumulated map and `colorIndex` the
mutable index, advanced exactly when a not-yet-bound year is met. -/
def assignColorsGo : List PersonWithLocation → List (Int × String) → Nat →
    List (Int × String)
  | [], colorMap, _ => colorMap
  | item :: rest, colorMap, colorIndex =>
    match colorMap.lookup item.year with
    | some _ => assignColorsGo rest colorMap colorIndex
    | none =>
      assignColorsGo rest
        (colorMap ++ [(item.year,
          tailwindColorNames.getD (colorIndex % tailwindColorNames.length) "")])
        (colorIndex + 1)

/-- The color assignment derived from a resolved record list
(spec: `assignColors`). -/
def assignColors (people : List PersonWithLocation) : List (Int × String) :=
  assignColorsGo people [] 0

/-- Modelled from the spec's words, for comparison with `assignColors`:
walk the year sequence once; the first time a year is seen, bind it to
`palette[count_of_distinct_years_seen_so_far mod palette.length]`, where
`seen` collects the years already bound. -/
def colorSpec : List Int → List Int → List (Int × String)
  | [], _ => []
  | y :: ys, seen =>
    if y ∈ seen then colorSpec ys seen
    else
      (y, tailwindColorNames.getD (seen.length % tailwindColorNames.length) "")
        :: colorSpec ys (y :: seen)

/-- Embeds `filteredPeople` (Map.tsx lines 160-163): the empty filter
(`filteredYear === ""`, here `none`) keeps the list; a set filter keeps
the records whose `year` equals it (`person.year === Number(filteredYear)`;
the select options are the stringified years, so the round trip through
`Number` is the identity on the integer year). -/
def applyFilter (people : List PersonWithLocation) (filteredYear : Option Int) :
    List PersonWithLocation :=
  match filteredYear with
  | none => people
  | some y => people.filter (fun person => person.year == y)

/-! Concrete sample values used by the closed witness theorems. -/

/-- A sample extracted record. -/
def demoPerson : Person :=
  { city := "Brno", year := 2020, name := "Jan Novák", device := "TV" }

/-- A second sample record with a different year. -/
def demoPerson2 : Person :=
  { city := "Kyjov", year := 2021, name := "Eva Malá", device := "PC" }

/-- A geocoder that always answers with zero candidates. -/
def emptyGeo : Nat → Except LookupFailure GeoResponse :=
  fun _ => .ok { features := [] }

/-- A geocoder whose every call fails. -/
def failGeo : Nat → Except LookupFailure GeoResponse :=
  fun _ => .error "network error"

/-- A geocoder that always answers with one candidate at `[17.1, 49.0]`. -/
def oneHitGeo : Nat → Except LookupFailure GeoResponse :=
  fun _ => .ok { features := [ { coordinates := (171/10, 49) } ] }

/-- Degenerate random source (both draws 0). -/
def zeroRnd : Nat → ℚ × ℚ := fun _ => (0, 0)

/-- The resolved form of `demoPerson` when geocoding finds no candidate. -/
def demoResolved : PersonWithLocation :=
  { city := "Brno", year := 2020, name := "Jan Novák", device := "TV",
    location := none }

/-- The resolved form of `demoPerson2` when geocoding finds no candidate. -/
def demoResolved2 : PersonWithLocation :=
  { city := "Kyjov", year := 2021, name := "Eva Malá", device := "PC",
    location := none }

/-- A sample raw row whose city cell is digits-only. -/
def digitsOnlyRow : Row :=
  { bydliste := some "123", datumProdeje := none, jmeno := none,
    prijmeni := none, typ := none }

/-- A sample well-formed raw row. -/
def demoRow : Row :=
  { bydliste := some "Kyjov 123", datumProdeje := some "2021-05-01",
    jmeno := some "Jan", prijmeni := some "Novák", typ := some "TV" }

/-- A sample raw row with a usable city but an unparsable date cell. -/
def badDateRow : Row :=
  { bydliste := some "Brno", datumProdeje := some "not a date",
    jmeno := some "Jan", prijmeni := some "Novák", typ := some "TV" }

/-- C8: for `Math.random()` draws in `[0,1)`, the jittered point stays
within `0.0025 = 1/400` degrees of the input on both axes. -/
theorem addRandomOffset_within_bound (loc : Coord) (r1 r2 : ℚ)
    (h1 : 0 ≤ r1) (h1' : r1 < 1) (h2 : 0 ≤ r2) (h2' : r2 < 1) :
    |(addRandomOffset r1 r2 loc).lat - loc.lat| ≤ 1/400 ∧
    |(addRandomOffset r1 r2 loc).lng - loc.lng| ≤ 1/400 := by
  constructor <;>
  · simp only [addRandomOffset, add_sub_cancel_left]
    rw [abs_le]
    constructor <;> nlinarith

/-- Closed instance of `addRandomOffset_within_bound` at concrete draws. -/
theorem addRandomOffset_within_bound_witness :
    |(addRandomOffset 0 (1/2) { lat := 49, lng := 17 }).lat -
        (Coord.mk 49 17).lat| ≤ 1/400 ∧
    |(addRandomOffset 0 (1/2) { lat := 49, lng := 17 }).lng -
        (Coord.mk 49 17).lng| ≤ 1/400 :=
  addRandomOffset_within_bound { lat := 49, lng := 17 } 0 (1/2)
    (by norm_num) (by norm_num) (by norm_num) (by norm_num)

/-- C7: the empty filter is the identity on the record list, and a set
filter keeps exactly the records with that year, in order (an
order-preserving sublist). -/
theorem applyFilter_empty_and_set (l : List PersonWithLocation) (y : Int) :
    applyFilter l none = l ∧
    (∀ p, p ∈ applyFilter l (some y) ↔ p ∈ l ∧ p.year = y) ∧
    (applyFilter l (some y)).Sublist l := by
  refine ⟨rfl, ?_, ?_⟩
  · intro p
    simp [applyFilter, List.mem_filter]
  · exact List.filter_sublist l

/-- Closed instance of `applyFilter_empty_and_set`. -/
theorem applyFilter_empty_and_set_witness :
    applyFilter [demoResolved, demoResolved2] none =
        [demoResolved, demoResolved2] ∧
    (demoResolved ∈ applyFilter [demoResolved, demoResolved2] (some 2020) ↔
      demoResolved ∈ [demoResolved, demoResolved2] ∧ demoResolved.year = 2020) :=
  ⟨(applyFilter_empty_and_set [demoResolved, demoResolved2] 2020).1,
   (applyFilter_empty_and_set [demoResolved, demoResolved2] 2020).2.1 demoResolved⟩

/-- C5: with at least one candidate in the response, the resolved location
is the service's `[longitude, latitude]` pair swapped into `{lat, lng}`
and jittered; with zero candidates the record is kept with no location;
neither case is an error. -/
theorem fetchCityLocation_swap_or_keep (rnd : ℚ × ℚ) (person : Person)
    (data : GeoResponse) (processed : Nat) :
    (∀ f fs, data.features = f :: fs →
      fetchCityLocation rnd person (.ok data) processed =
        .ok (processed + 1,
          { city := person.city, year := person.year, name := person.name,
            device := person.device,
            location := some (addRandomOffset rnd.1 rnd.2
              { lat := f.coordinates.2, lng := f.coordinates.1 }) })) ∧
    (data.features = [] →
      fetchCityLocation rnd person (.ok data) processed =
        .ok (processed + 1,
          { city := person.city, year := person.year, name := person.name,
            device := person.device, location := none })) := by
  constructor
  · intro f fs h
    simp [fetchCityLocation, h]
  · intro h
    simp [fetchCityLocation, h]

/-- Closed instance of `fetchCityLocation_swap_or_keep` at one candidate. -/
theorem fetchCityLocation_swap_or_keep_witness :
    fetchCityLocation (0, 0) demoPerson
        (.ok { features := [ { coordinates := (171/10, 49) } ] }) 0 =
      .ok (1,
        { city := demoPerson.city, year := demoPerson.year,
          name := demoPerson.name, device := demoPerson.device,
          location := some (addRandomOffset 0 0
            { lat := (49 : ℚ), lng := (171/10 : ℚ) }) }) :=
  (fetchCityLocation_swap_or_keep (0, 0) demoPerson
      { features := [ { coordinates := (171/10, 49) } ] } 0).1
    { coordinates := (171/10, 49) } [] rfl

/-- C2 (code bug): on a successful single-record run the total is `1`
(the record count) but the processed counter finishes at `2`:
`setProcessedPeople` is incremented both inside `fetchCityLocation`
(line 80) and again after the `await` (line 127), so a successful run
finishes with processed = 2 x total instead of processed = total. -/
theorem processed_counter_double_increment :
    resolveAll emptyGeo zeroRnd [demoPerson] 0 0 = .ok (2, [demoResolved]) ∧
    ([demoPerson] : List Person).length = 1 :=
  ⟨rfl, rfl⟩

/-- C1 counterexample: a row whose city cell is `"123"` passes the
truthiness filter, but digit stripping then empties its city, refuting
"every output record has a non-empty city (after digit stripping)". -/
theorem extract_city_counterexample :
    ¬ (∀ p ∈ extract (fun _ => none) [digitsOnlyRow], p.city ≠ "") := by
  decide

/-- C1 (amended): `extract` output length is at most the row count, every
output record's city contains no digit characters, and every output record
comes from a row whose city cell was present and non-empty.  (The city
left after digit stripping can still be empty when the raw cell was
digits-only, see `extract_city_counterexample`.) -/
theorem extract_length_and_city (parseYear : String → Option Int)
    (rows : List Row) :
    (extract parseYear rows).length ≤ rows.length ∧
    ∀ p ∈ extract parseYear rows,
      (∀ c ∈ p.city.data, c.isDigit = false) ∧
      ∃ r ∈ rows, r.bydliste.getD "" ≠ "" ∧ p = toRawPerson parseYear r := by
  constructor
  · calc (extract parseYear rows).length
        = (rows.filter (fun row => row.bydliste.getD "" != "")).length := by
          simp [extract]
      _ ≤ rows.length := List.length_filter_le _ _
  · intro p hp
    simp only [extract, List.mem_map] at hp
    obtain ⟨r, hr, hpr⟩ := hp
    rw [List.mem_filter] at hr
    refine ⟨?_, r, hr.1, ?_, hpr.symm⟩
    · intro c hc
      rw [← hpr] at hc
      simp only [toRawPerson, stripDigits, List.mem_filter] at hc
      simpa using hc.2
    · simpa [bne_iff_ne] using hr.2

/-- Closed instance of `extract_length_and_city` at a concrete table. -/
theorem extract_length_and_city_witness :
    (extract (fun _ => some 2021) [demoRow]).length ≤ 1 ∧
    (∀ c ∈ (toRawPerson (fun _ => some 2021) demoRow).city.data,
      c.isDigit = false) :=
  ⟨(extract_length_and_city (fun _ => some 2021) [demoRow]).1,
   ((extract_length_and_city (fun _ => some 2021) [demoRow]).2
      (toRawPerson (fun _ => some 2021) demoRow) (by decide)).1⟩

/-- C9: a row with a usable (present, non-empty) city but an unparsable
sale date is not rejected: its record appears in the extraction output
with an invalid (`NaN`, here `none`) year. -/
theorem extract_unparsable_date_kept (parseYear : String → Option Int)
    (rows : List Row) (r : Row) (hmem : r ∈ rows)
    (hcity : r.bydliste.getD "" ≠ "")
    (hdate : r.datumProdeje.bind parseYear = none) :
    toRawPerson parseYear r ∈ extract parseYear rows ∧
    (toRawPerson parseYear r).year = none := by
  constructor
  · apply List.mem_map_of_mem
    rw [List.mem_filter]
    exact ⟨hmem, by simpa [bne_iff_ne] using hcity⟩
  · simpa [toRawPerson] using hdate

/-- Any member of `insertPerson x l` is `x` or a member of `l`. -/
lemma mem_insertPerson (z x : PersonWithLocation) (l : List PersonWithLocation)
    (h : z ∈ insertPerson x l) : z = x ∨ z ∈ l := by
  induction l with
  | nil => simpa [insertPerson] using h
  | cons y ys ih =>
    simp only [insertPerson] at h
    split at h
    · rcases List.mem_cons.1 h with h1 | h1
      · exact Or.inl h1
      · exact Or.inr h1
    · rcases List.mem_cons.1 h with h1 | h1
      · exact Or.inr (by simp [h1])
      · rcases ih h1 with h2 | h2
        · exact Or.inl h2
        · exact Or.inr (List.mem_cons_of_mem _ h2)

/-- Inserting into a year-sorted list keeps it year-sorted. -/
lemma pairwise_insertPerson (x : PersonWithLocation)
    (l : List PersonWithLocation)
    (h : l.Pairwise (fun a b => a.year ≤ b.year)) :
    (insertPerson x l).Pairwise (fun a b => a.year ≤ b.year) := by
  induction l with
  | nil => simp [insertPerson]
  | cons y ys ih =>
    rw [List.pairwise_cons] at h
    simp only [insertPerson]
    split
    · rename_i hxy
      refine List.Pairwise.cons ?_ (List.Pairwise.cons h.1 h.2)
      intro z hz
      rcases List.mem_cons.1 hz with h1 | h1
      · rw [h1]; exact hxy
      · exact le_trans hxy (h.1 z h1)
    · rename_i hxy
      push_neg at hxy
      refine List.Pairwise.cons ?_ (ih h.2)
      intro z hz
      rcases mem_insertPerson z x ys hz with h1 | h1
      · rw [h1]; exact le_of_lt hxy
      · exact h.1 z h1

/-- The output of `sortPeople` is ascending by `year`. -/
lemma sortPeople_pairwise (l : List PersonWithLocation) :
    (sortPeople l).Pairwise (fun a b => a.year ≤ b.year) := by
  induction l with
  | nil => simp [sortPeople]
  | cons x xs ih => exact pairwise_insertPerson x _ ih

/-- `insertPerson` permutes `x :: l`. -/
lemma insertPerson_perm (x : PersonWithLocation) (l : List PersonWithLocation) :
    (insertPerson x l).Perm (x :: l) := by
  induction l with
  | nil => exact List.Perm.refl _
  | cons y ys ih =>
    simp only [insertPerson]
    split
    · exact List.Perm.refl _
    · exact (ih.cons y).trans (List.Perm.swap x y ys)

/-- `sortPeople` permutes its input. -/
lemma sortPeople_perm (l : List PersonWithLocation) : (sortPeople l).Perm l := by
  induction l with
  | nil => exact List.Perm.refl _
  | cons x xs ih =>
    exact (insertPerson_perm x (sortPeople xs)).trans (ih.cons x)

/-- Restricting to one year commutes with `insertPerson`: the inserted
record lands in front of the year class exactly when it carries that year. -/
lemma filter_insertPerson (x : PersonWithLocation) (y : Int) :
    ∀ l : List PersonWithLocation,
      (insertPerson x l).filter (fun q => q.year == y) =
        if x.year = y then x :: l.filter (fun q => q.year == y)
        else l.filter (fun q => q.year == y) := by
  intro l
  induction l with
  | nil =>
    by_cases hx : x.year = y <;> simp [insertPerson, List.filter_cons, hx]
  | cons z zs ih =>
    simp only [insertPerson]
    split
    · rename_i hle
      by_cases hx : x.year = y <;> simp [List.filter_cons, hx]
    · rename_i hgt
      by_cases hx : x.year = y
      · have hz : ¬ (z.year = y) := fun hz => hgt (by rw [hx, hz])
        simp [List.filter_cons, hx, hz, ih]
      · by_cases hz : z.year = y <;> simp [List.filter_cons, hx, hz, ih]

/-- `sortPeople` is stable: each year class keeps its original order. -/
lemma sortPeople_filter (l : List PersonWithLocation) (y : Int) :
    (sortPeople l).filter (fun q => q.year == y) =
      l.filter (fun q => q.year == y) := by
  induction l with
  | nil => rfl
  | cons x xs ih =>
    by_cases hx : x.year = y <;>
      simp [sortPeople, filter_insertPerson, hx, ih, List.filter_cons]

/-- C4: the embedded sort (`.sort((a, b) => a.year - b.year)`, a stable
sort) returns the records ascending by `year`, as a permutation of the
input, and stably: for every year the records of that year keep their
original relative order. -/
theorem sortPeople_sorted_stable (l : List PersonWithLocation) :
    (sortPeople l).Pairwise (fun a b => a.year ≤ b.year) ∧
    (sortPeople l).Perm l ∧
    ∀ y : Int, (sortPeople l).filter (fun q => q.year == y) =
      l.filter (fun q => q.year == y) :=
  ⟨sortPeople_pairwise l, sortPeople_perm l, fun y => sortPeople_filter l y⟩

/-- Closed instance of `sortPeople_sorted_stable`. -/
theorem sortPeople_sorted_stable_witness :
    (sortPeople [demoResolved2, demoResolved]).Perm [demoResolved2, demoResolved] :=
  (sortPeople_sorted_stable [demoResolved2, demoResolved]).2.1

/-- A successful `resolveOne` preserves the record's four fields and
advances the processed counter by exactly two (the duplicated
increment of lines 80 and 127). -/
lemma resolveOne_ok {rnd : ℚ × ℚ} {person : Person}
    {resp : Except LookupFailure GeoResponse} {c n : Nat}
    {pw : PersonWithLocation}
    (h : resolveOne rnd person resp c = .ok (n, pw)) :
    forgetLocation pw = person ∧ n = c + 2 := by
  cases resp with
  | error e => simp [resolveOne, fetchCityLocation] at h
  | ok data =>
    cases hf : data.features.head? with
    | none =>
      simp [resolveOne, fetchCityLocation, hf] at h
      exact ⟨by rw [← h.2]; rfl, by omega⟩
    | some f =>
      simp [resolveOne, fetchCityLocation, hf] at h
      exact ⟨by rw [← h.2]; rfl, by omega⟩

/-- A successful `resolveAll` yields one output per input record (in
order, fields preserved) and finishes with the counter advanced by two
per record. -/
lemma resolveAll_ok (geo : Nat → Except LookupFailure GeoResponse)
    (rnd : Nat → ℚ × ℚ) :
    ∀ (records : List Person) (i c n : Nat) (out : List PersonWithLocation),
      resolveAll geo rnd records i c = .ok (n, out) →
      out.map forgetLocation = records ∧ n = c + 2 * records.length := by
  intro records
  induction records with
  | nil =>
    intro i c n out h
    simp [resolveAll] at h
    simp [← h.1, ← h.2]
  | cons p ps ih =>
    intro i c n out h
    simp only [resolveAll] at h
    split at h
    · simp at h
    · rename_i n1 pw h1
      split at h
      · simp at h
      · rename_i m rest h2
        simp at h
        obtain ⟨hf, hn1⟩ := resolveOne_ok h1
        obtain ⟨hmap, hcount⟩ := ih (i + 1) n1 m rest h2
        constructor
        · rw [← h.2]
          simp [hf, hmap]
        · simp only [List.length_cons]
          omega

/-- The `element !== null` filter removes nothing. -/
lemma filter_notNull (l : List PersonWithLocation) : l.filter notNull = l := by
  induction l with
  | nil => rfl
  | cons x xs ih => simp [List.filter_cons, notNull, ih]

/-- C10: a successful resolution run returns a list of exactly the input
length (the post-resolution null filter removes nothing), and each output
record preserves the city, year, name and device of its corresponding
input record, only possibly adding a location. -/
theorem resolveAll_preserves_records
    (geo : Nat → Except LookupFailure GeoResponse) (rnd : Nat → ℚ × ℚ)
    (records : List Person) (n : Nat) (out : List PersonWithLocation)
    (h : resolveAll geo rnd records 0 0 = .ok (n, out)) :
    out.length = records.length ∧
    out.filter notNull = out ∧
    out.map forgetLocation = records := by
  obtain ⟨hmap, _⟩ := resolveAll_ok geo rnd records 0 0 n out h
  exact ⟨by rw [← hmap, List.length_map], filter_notNull out, hmap⟩

/-- Closed instance of `resolveAll_preserves_records`. -/
theorem resolveAll_preserves_records_witness :
    ([demoResolved] : List PersonWithLocation).length =
        ([demoPerson] : List Person).length ∧
    [demoResolved].filter notNull = [demoResolved] ∧
    [demoResolved].map forgetLocation = [demoPerson] :=
  resolveAll_preserves_records emptyGeo zeroRnd [demoPerson] 2 [demoResolved] rfl

/-- When some lookup in range fails, the whole orchestration is an error. -/
lemma resolveAll_error_of_fail (geo : Nat → Except LookupFailure GeoResponse)
    (rnd : Nat → ℚ × ℚ) :
    ∀ (records : List Person) (i c : Nat),
      (∃ k, k < records.length ∧ ∃ e, geo (i + k) = .error e) →
      ∃ e, resolveAll geo rnd records i c = .error e := by
  intro records
  induction records with
  | nil =>
    intro i c h
    obtain ⟨k, hk, _⟩ := h
    simp at hk
  | cons p ps ih =>
    intro i c h
    obtain ⟨k, hk, e, he⟩ := h
    cases k with
    | zero =>
      simp only [Nat.add_zero] at he
      exact ⟨e, by simp [resolveAll, resolveOne, fetchCityLocation, he]⟩
    | succ k' =>
      cases h1 : resolveOne (rnd i) p (geo i) c with
      | error e1 => exact ⟨e1, by simp [resolveAll, h1]⟩
      | ok v =>
        obtain ⟨n1, pw⟩ := v
        obtain ⟨e2, he2⟩ := ih (i + 1) n1
          ⟨k', by simpa using Nat.lt_of_succ_lt_succ (by simpa using hk),
            e, by rw [show i + 1 + k' = i + (k' + 1) by omega]; exact he⟩
        exact ⟨e2, by simp [resolveAll, h1, he2]⟩

/-- C3: when at least one lookup of the run fails with a `LookupFailure`,
the whole run fails and the previously displayed resolved list is left
unchanged (the `catch` only logs and `setPeople` never runs). -/
theorem lookup_failure_keeps_previous (prev : List PersonWithLocation)
    (geo : Nat → Except LookupFailure GeoResponse) (rnd : Nat → ℚ × ℚ)
    (records : List Person)
    (h : ∃ k, k < records.length ∧ ∃ e, geo k = .error e) :
    processFilePeople prev geo rnd records = prev := by
  obtain ⟨e, he⟩ := resolveAll_error_of_fail geo rnd records 0 0 (by simpa using h)
  simp [processFilePeople, he]

/-- Closed instance of `lookup_failure_keeps_previous`. -/
theorem lookup_failure_keeps_previous_witness :
    processFilePeople [demoResolved] failGeo zeroRnd [demoPerson2] =
      [demoResolved] :=
  lookup_failure_keeps_previous [demoResolved] failGeo zeroRnd [demoPerson2]
    ⟨0, by decide, "network error", rfl⟩

/-- Closed instance of `extract_unparsable_date_kept`. -/
theorem extract_unparsable_date_kept_witness :
    toRawPerson (fun _ => none) badDateRow ∈
        extract (fun _ => none) [badDateRow] ∧
    (toRawPerson (fun _ => none) badDateRow).year = none :=
  extract_unparsable_date_kept (fun _ => none) [badDateRow] badDateRow
    (by decide) (by decide) rfl

/-- Association-list lookup at its own head key. -/
lemma lookup_cons_self (k : Int) (v : String) (rest : List (Int × String)) :
    ((k, v) :: rest).lookup k = some v := by
  simp [List.lookup]

/-- Association-list lookup skips a head with a different key. -/
lemma lookup_cons_ne (k : Int) (v : String) (rest : List (Int × String))
    (y : Int) (h : y ≠ k) : ((k, v) :: rest).lookup y = rest.lookup y := by
  simp [List.lookup, beq_false_of_ne h]

/-- A successful lookup resolves to a member entry. -/
lemma mem_of_lookup (l : List (Int × String)) (y : Int) (c : String)
    (h : l.lookup y = some c) : (y, c) ∈ l := by
  induction l with
  | nil => simp [List.lookup] at h
  | cons e es ih =>
    obtain ⟨k, v⟩ := e
    by_cases hk : y = k
    · subst hk
      rw [lookup_cons_self] at h
      simp at h
      simp [h]
    · rw [lookup_cons_ne _ _ _ _ hk] at h
      exact List.mem_cons_of_mem _ (ih h)

/-- Appending one binding: the lookup is defined exactly on the old keys
plus the new one. -/
lemma lookup_append_single (acc : List (Int × String)) (yr : Int) (c : String)
    (y : Int) :
    ((acc ++ [(yr, c)]).lookup y).isSome =
      (((acc.lookup y).isSome) || (y == yr)) := by
  induction acc with
  | nil =>
    by_cases h : y = yr
    · subst h; simp [lookup_cons_self, List.lookup]
    · simp [List.nil_append, lookup_cons_ne _ _ _ _ h, List.lookup,
        beq_false_of_ne h]
  | cons e es ih =>
    obtain ⟨k, v⟩ := e
    by_cases hk : y = k
    · subst hk
      rw [List.cons_append, lookup_cons_self, lookup_cons_self]
      simp
    · rw [List.cons_append, lookup_cons_ne _ _ _ _ hk,
        lookup_cons_ne _ _ _ _ hk]
      exact ih

/-- The color-map loop refines the spec's first-seen palette walk:
starting from an accumulator whose keys are exactly `seen` and whose
`colorIndex` equals its size, the loop appends the spec's assignment for
the remaining years. -/
lemma assignColorsGo_spec :
    ∀ (ps : List PersonWithLocation) (acc : List (Int × String))
      (seen : List Int),
      acc.length = seen.length →
      (∀ y : Int, ((acc.lookup y).isSome = true) ↔ y ∈ seen) →
      assignColorsGo ps acc acc.length =
        acc ++ colorSpec (ps.map (fun p => p.year)) seen := by
  intro ps
  induction ps with
  | nil =>
    intro acc seen _ _
    simp [assignColorsGo, colorSpec]
  | cons p ps ih =>
    intro acc seen hlen hkeys
    cases hl : acc.lookup p.year with
    | some v =>
      have hy : p.year ∈ seen := (hkeys p.year).1 (by simp [hl])
      simp only [assignColorsGo, hl, List.map_cons, colorSpec, if_pos hy]
      exact ih acc seen hlen hkeys
    | none =>
      have hy : p.year ∉ seen := fun hmem => by
        have hs := (hkeys p.year).2 hmem
        rw [hl] at hs
        simp at hs
      simp only [assignColorsGo, hl, List.map_cons, colorSpec, if_neg hy]
      set c := tailwindColorNames.getD (acc.length % tailwindColorNames.length)
        "" with hc
      have hkeys' : ∀ y : Int,
          (((acc ++ [(p.year, c)]).lookup y).isSome = true) ↔
            y ∈ p.year :: seen := by
        intro y
        rw [lookup_append_single]
        by_cases hyy : y = p.year
        · subst hyy; simp
        · simp [beq_false_of_ne hyy, hkeys y, hyy]
      have h1 : acc.length + 1 = (acc ++ [(p.year, c)]).length := by simp
      rw [h1, ih (acc ++ [(p.year, c)]) (p.year :: seen) (by simp [hlen])
        hkeys']
      rw [List.append_assoc, List.singleton_append, hc, hlen]

/-- The color map equals the spec-side first-seen palette walk. -/
lemma assignColors_eq_colorSpec (l : List PersonWithLocation) :
    assignColors l = colorSpec (l.map (fun p => p.year)) [] := by
  have h := assignColorsGo_spec l [] [] rfl (by intro y; simp [List.lookup])
  simpa [assignColors] using h

/-- The value bound at position `k` of the spec walk is the palette entry
at the running distinct-year count. -/
lemma colorSpec_value :
    ∀ (ys seen : List Int) (k : Nat), k < (colorSpec ys seen).length →
      ((colorSpec ys seen).getD k ((0 : Int), "")).2 =
        tailwindColorNames.getD
          ((seen.length + k) % tailwindColorNames.length) "" := by
  intro ys
  induction ys with
  | nil =>
    intro seen k hk
    simp [colorSpec] at hk
  | cons y ys ih =>
    intro seen k hk
    by_cases hy : y ∈ seen
    · simp only [colorSpec, if_pos hy] at hk ⊢
      exact ih seen k hk
    · simp only [colorSpec, if_neg hy] at hk ⊢
      cases k with
      | zero => simp
      | succ k' =>
        simp only [List.length_cons, Nat.succ_lt_succ_iff] at hk
        rw [List.getD_cons_succ, ih (y :: seen) k' hk]
        have harg : (y :: seen).length + k' = seen.length + (k' + 1) := by
          simp only [List.length_cons]
          omega
        rw [harg]

/-- Every year occurring in the walked sequence ends up bound (or was
already seen). -/
lemma colorSpec_lookup_isSome :
    ∀ (ys seen : List Int) (y : Int), y ∈ ys →
      ((colorSpec ys seen).lookup y).isSome = true ∨ y ∈ seen := by
  intro ys
  induction ys with
  | nil =>
    intro seen y h
    simp at h
  | cons z zs ih =>
    intro seen y hy
    by_cases hz : z ∈ seen
    · simp only [colorSpec, if_pos hz]
      rcases List.mem_cons.1 hy with h | h
      · exact Or.inr (h ▸ hz)
      · exact ih seen y h
    · simp only [colorSpec, if_neg hz]
      by_cases hyz : y = z
      · subst hyz
        left
        rw [lookup_cons_self]
        rfl
      · rcases List.mem_cons.1 hy with h | h
        · exact absurd h hyz
        · rcases ih (z :: seen) y h with h2 | h2
          · left
            rw [lookup_cons_ne _ _ _ _ hyz]
            exact h2
          · rcases List.mem_cons.1 h2 with h3 | h3
            · exact absurd h3 hyz
            · exact Or.inr h3

/-- Distinct palette positions below the palette size yield distinct
color tokens. -/
lemma palette_getD_ne (i j : Nat) (hi : i < tailwindColorNames.length)
    (hj : j < tailwindColorNames.length) (hij : i ≠ j) :
    tailwindColorNames.getD i "" ≠ tailwindColorNames.getD j "" := by
  rw [List.getD_eq_getElem _ _ hi, List.getD_eq_getElem _ _ hj]
  intro h
  have hnd : tailwindColorNames.Nodup := by decide
  exact hij ((hnd.getElem_inj_iff).1 h)

/-- C6: the color map is exactly the spec's walk (first time a year is
seen it is bound to `palette[distinct_years_seen_so_far % palette.length]`
over the 20-entry palette); every record's year is bound; records with
equal years get the same color; and while at most 20 distinct years
occur, records with different years get different colors. -/
theorem assignColors_first_seen (l : List PersonWithLocation) :
    tailwindColorNames.length = 20 ∧
    assignColors l = colorSpec (l.map (fun p => p.year)) [] ∧
    (∀ p ∈ l, ((assignColors l).lookup p.year).isSome = true) ∧
    (∀ p q : PersonWithLocation, p ∈ l → q ∈ l → p.year = q.year →
      (assignColors l).lookup p.year = (assignColors l).lookup q.year) ∧
    (∀ p q : PersonWithLocation, p ∈ l → q ∈ l → p.year ≠ q.year →
      (assignColors l).length ≤ tailwindColorNames.length →
      (assignColors l).lookup p.year ≠ (assignColors l).lookup q.year) := by
  refine ⟨rfl, assignColors_eq_colorSpec l, ?_, ?_, ?_⟩
  · intro p hp
    rw [assignColors_eq_colorSpec l]
    rcases colorSpec_lookup_isSome (l.map (fun p => p.year)) [] p.year
        (List.mem_map_of_mem _ hp) with h | h
    · exact h
    · simp at h
  · intro p q _ _ hpq
    rw [hpq]
  · intro p q hp hq hpq hlen
    have hps : ((colorSpec (l.map (fun r => r.year)) []).lookup
        p.year).isSome = true := by
      rcases colorSpec_lookup_isSome (l.map (fun r => r.year)) [] p.year
          (List.mem_map_of_mem _ hp) with h | h
      · exact h
      · simp at h
    have hqs : ((colorSpec (l.map (fun r => r.year)) []).lookup
        q.year).isSome = true := by
      rcases colorSpec_lookup_isSome (l.map (fun r => r.year)) [] q.year
          (List.mem_map_of_mem _ hq) with h | h
      · exact h
      · simp at h
    rw [assignColors_eq_colorSpec l] at hlen ⊢
    set cs := colorSpec (l.map (fun r => r.year)) [] with hcs
    obtain ⟨c1, hc1⟩ := Option.isSome_iff_exists.1 hps
    obtain ⟨c2, hc2⟩ := Option.isSome_iff_exists.1 hqs
    rw [hc1, hc2]
    intro hEq
    have hcc : c1 = c2 := by simpa using hEq
    obtain ⟨i, hi, hgi⟩ := List.getElem_of_mem (mem_of_lookup cs p.year c1 hc1)
    obtain ⟨j, hj, hgj⟩ := List.getElem_of_mem (mem_of_lookup cs q.year c2 hc2)
    have hij : i ≠ j := by
      intro h
      subst h
      rw [hgi] at hgj
      exact hpq (congrArg Prod.fst hgj)
    have hv1 := colorSpec_value (l.map (fun r => r.year)) [] i hi
    have hv2 := colorSpec_value (l.map (fun r => r.year)) [] j hj
    simp only [List.length_nil, Nat.zero_add, ← hcs] at hv1 hv2
    rw [List.getD_eq_getElem _ _ hi, hgi] at hv1
    rw [List.getD_eq_getElem _ _ hj, hgj] at hv2
    have hiL : i < tailwindColorNames.length := lt_of_lt_of_le hi hlen
    have hjL : j < tailwindColorNames.length := lt_of_lt_of_le hj hlen
    rw [Nat.mod_eq_of_lt hiL] at hv1
    rw [Nat.mod_eq_of_lt hjL] at hv2
    exact palette_getD_ne i j hiL hjL hij (by rw [← hv1, ← hv2, hcc])

/-- Closed instance of `assignColors_first_seen`: two distinct years get
distinct colors. -/
theorem assignColors_first_seen_witness :
    (assignColors [demoResolved, demoResolved2]).lookup demoResolved.year ≠
      (assignColors [demoResolved, demoResolved2]).lookup demoResolved2.year :=
  (assignColors_first_seen [demoResolved, demoResolved2]).2.2.2.2
    demoResolved demoResolved2 (by decide) (by decide) (by decide) (by decide)

end CustomerMap
